import Mathlib

/-!
Verification of the logging-introspection utility `who_is_logging_things.py`.

The development shallowly embeds the data model of the script: Python
objects that the script only reads (handlers, formatters, loggers, the
manager registry) become Lean structures, dynamic attributes that may be
absent become `Option` fields, and every report function becomes a pure
function producing the list of printed lines.  Machine-specific values
(interpreter version string, module path, object identities) are fields of
an `Env`/`Handler` record.  Python string comparison is code-point
lexicographic, embedded below as `charsLe`/`charsLt`; Python `sorted` is a
stable sort, embedded as `List.insertionSort` (stable sorts for one total
preorder agree on every input).
-/

namespace WhoLog

/-- A dynamically typed Python value as far as the script observes one:
a string, an integer, or `None`.  `str(v)` is `pyStr v`. -/
inductive PyVal where
  | pstr (s : String)
  | pint (n : Int)
  | pnone
deriving DecidableEq, Repr

/-- Python `str` applied to an observed value (used by f-strings). -/
def pyStr : PyVal → String
  | .pstr s => s
  | .pint n => toString n
  | .pnone => "None"

/-- Python `str` applied to a boolean. -/
def pyBool : Bool → String
  | true => "True"
  | false => "False"

/-- Code-point lexicographic `<=` on character lists: the comparison Python
uses for `str`.  Structurally recursive so that it evaluates in the kernel. -/
def charsLe : List Char → List Char → Bool
  | [], _ => true
  | _ :: _, [] => false
  | a :: as, b :: bs =>
    if a.toNat < b.toNat then true
    else if b.toNat < a.toNat then false
    else charsLe as bs

/-- Code-point lexicographic `<` on character lists. -/
def charsLt : List Char → List Char → Bool
  | [], [] => false
  | [], _ :: _ => true
  | _ :: _, [] => false
  | a :: as, b :: bs =>
    if a.toNat < b.toNat then true
    else if b.toNat < a.toNat then false
    else charsLt as bs

/-- `logging.getLevelName`: the fixed level table, with the
`"Level %s"` rendering for unregistered numeric levels. -/
def getLevelName (n : Int) : String :=
  if n = 50 then "CRITICAL"
  else if n = 40 then "ERROR"
  else if n = 30 then "WARNING"
  else if n = 20 then "INFO"
  else if n = 10 then "DEBUG"
  else if n = 0 then "NOTSET"
  else "Level " ++ toString n

/-- The concrete class of a handler object.  The script distinguishes the
stream/file/rotating classes of the `logging` package; any other concrete
class is `otherHandler` with its class name. -/
inductive HandlerClass where
  | streamHandler
  | fileHandler
  | rotatingFileHandler
  | timedRotatingFileHandler
  | nullHandler
  | otherHandler (nm : String)
deriving DecidableEq, Repr

/-- `type(handler).__name__`. -/
def className : HandlerClass → String
  | .streamHandler => "StreamHandler"
  | .fileHandler => "FileHandler"
  | .rotatingFileHandler => "RotatingFileHandler"
  | .timedRotatingFileHandler => "TimedRotatingFileHandler"
  | .nullHandler => "NullHandler"
  | .otherHandler nm => nm

/-- Python `isinstance` on the handler class hierarchy:
`FileHandler` subclasses `StreamHandler`, and both rotating handlers
subclass `FileHandler` (through `BaseRotatingHandler`); the two rotating
classes are siblings of each other. -/
def isinstance : HandlerClass → HandlerClass → Bool
  | c, .streamHandler =>
    match c with
    | .streamHandler | .fileHandler | .rotatingFileHandler
    | .timedRotatingFileHandler => true
    | _ => false
  | c, .fileHandler =>
    match c with
    | .fileHandler | .rotatingFileHandler | .timedRotatingFileHandler => true
    | _ => false
  | c, k => c == k

/-- A stream object as the script observes it: its truthiness, an optional
`name` attribute, and its `str(...)` rendering. -/
structure StreamObj where
  truthy : Bool
  name : Option String
  strRepr : String
deriving DecidableEq, Repr

/-- A formatter object: the `_fmt`, `datefmt` and `_style` attributes,
each `none` when the attribute is absent on this interpreter version. -/
structure Formatter where
  fmtStr : Option PyVal
  datefmt : Option PyVal
  style : Option PyVal
deriving DecidableEq, Repr

/-- A handler object.  Every dynamically looked-up attribute is an
`Option`: `none` means the attribute is absent (`getattr` would fall back
to its default).  `objId` is the process-local `id(handler)` and `module`
the `__module__` attribute of its class. -/
structure Handler where
  cls : HandlerClass
  level : Int
  formatter : Option Formatter
  stream : Option StreamObj
  baseFilename : Option PyVal
  mode : Option PyVal
  encoding : Option PyVal
  maxBytes : Option PyVal
  backupCount : Option PyVal
  whenV : Option PyVal
  interval : Option PyVal
  filters : List String
  objId : Nat
  module : Option String
deriving DecidableEq, Repr

/-- `getattr(x, attr, "N/A")`. -/
def naDefault (o : Option PyVal) : PyVal := o.getD (.pstr "N/A")

/-- The formatter sub-dictionary of `get_handler_info`. -/
structure FormatterInfo where
  format : PyVal
  datefmt : PyVal
  style : PyVal
deriving DecidableEq, Repr

/-- The dictionary returned by `get_handler_info`: the always-present keys
as fields, the kind-specific keys as the association list `extras` in
insertion order. -/
structure HandlerInfo where
  type : String
  level : String
  level_num : Int
  formatter : Option FormatterInfo
  extras : List (String × PyVal)
  filters : List String
deriving DecidableEq, Repr

/-- `RotatingFileHandler` is defined in `logging.handlers`, not in the
`logging` module itself, so `hasattr(logging, "RotatingFileHandler")` is
`False` on the standard library. -/
def logging_hasRotatingFileHandler : Bool := false

/-- `TimedRotatingFileHandler` likewise lives in `logging.handlers`, so
`hasattr(logging, "TimedRotatingFileHandler")` is `False`. -/
def logging_hasTimedRotatingFileHandler : Bool := false

/-- Body of the `isinstance(handler, logging.FileHandler)` branch of
`get_handler_info`. -/
def file_extras (h : Handler) : List (String × PyVal) :=
  [("filename", naDefault h.baseFilename),
   ("mode", naDefault h.mode),
   ("encoding", naDefault h.encoding)]

/-- Body of the `isinstance(handler, logging.StreamHandler)` branch:
`stream.name` when the stream is truthy and has a `name` attribute,
`str(stream)` when truthy without one, `"N/A"` when absent or falsy. -/
def stream_field (h : Handler) : PyVal :=
  match h.stream with
  | some s =>
    if s.truthy then
      match s.name with
      | some nm => .pstr nm
      | none => .pstr s.strRepr
    else .pstr "N/A"
  | none => .pstr "N/A"

/-- Body of the `RotatingFileHandler` branch of `get_handler_info`. -/
def rotating_extras (h : Handler) : List (String × PyVal) :=
  [("filename", naDefault h.baseFilename),
   ("maxBytes", naDefault h.maxBytes),
   ("backupCount", naDefault h.backupCount)]

/-- Body of the `TimedRotatingFileHandler` branch of `get_handler_info`. -/
def timed_extras (h : Handler) : List (String × PyVal) :=
  [("filename", naDefault h.baseFilename),
   ("when", naDefault h.whenV),
   ("interval", naDefault h.interval),
   ("backupCount", naDefault h.backupCount)]

/-- `get_handler_info`, generalized over the two `hasattr(logging, ...)`
guards so that the dispatch can be analyzed for either truth value.
The `elif` chain is translated branch for branch, in source order. -/
def get_handler_infoG (hasRot hasTimed : Bool) (h : Handler) : HandlerInfo :=
  { type := className h.cls
    level := getLevelName h.level
    level_num := h.level
    formatter := h.formatter.map fun f =>
      { format := naDefault f.fmtStr
        datefmt := naDefault f.datefmt
        style := naDefault f.style }
    extras :=
      if isinstance h.cls .fileHandler then file_extras h
      else if isinstance h.cls .streamHandler then [("stream", stream_field h)]
      else if hasRot && isinstance h.cls .rotatingFileHandler then rotating_extras h
      else if hasTimed && isinstance h.cls .timedRotatingFileHandler then timed_extras h
      else []
    filters := h.filters }

/-- `get_handler_info` as it runs on the standard library. -/
def get_handler_info (h : Handler) : HandlerInfo :=
  get_handler_infoG logging_hasRotatingFileHandler logging_hasTimedRotatingFileHandler h

/-- One `if key in handler_info: print(...)` line of
`print_handler_details`. -/
def extra_line (info : HandlerInfo) (indent key label : String) : List String :=
  match info.extras.lookup key with
  | some v => [indent ++ label ++ pyStr v]
  | none => []

/-- `print_handler_details`: the lines printed for one handler
dictionary, in source order. -/
def print_handler_details (info : HandlerInfo) (indent : String) : List String :=
  [indent ++ "Type: " ++ info.type,
   indent ++ "Level: " ++ info.level ++ " (" ++ toString info.level_num ++ ")"]
  ++ extra_line info indent "filename" "File: "
  ++ extra_line info indent "stream" "Stream: "
  ++ extra_line info indent "mode" "Mode: "
  ++ extra_line info indent "encoding" "Encoding: "
  ++ extra_line info indent "maxBytes" "Max Bytes: "
  ++ extra_line info indent "backupCount" "Backup Count: "
  ++ extra_line info indent "when" "When: "
  ++ extra_line info indent "interval" "Interval: "
  ++ (match info.formatter with
      | some f =>
        [indent ++ "Formatter:",
         indent ++ "  Format: " ++ pyStr f.format,
         indent ++ "  Date Format: " ++ pyStr f.datefmt,
         indent ++ "  Style: " ++ pyStr f.style]
      | none => [indent ++ "Formatter: None"])
  ++ (if info.filters.isEmpty then [indent ++ "Filters: None"]
      else [indent ++ "Filters: " ++ String.intercalate ", " info.filters])

/-- A logger object: the attributes read by the script.  Identity of a
Python object is modelled by the `Nat` index under `Registry.loggers`;
`parent` is the identity of the parent logger, `none` when the `parent`
attribute is `None`. -/
structure LoggerData where
  name : String
  level : Int
  propagate : Bool
  disabled : Bool
  parent : Option Nat
  handlers : List Handler
  filters : List String
deriving Repr

/-- One value of `logging.Logger.manager.loggerDict`: either a
`PlaceHolder` or a real logger, referenced by identity. -/
inductive Entry where
  | placeholder
  | logger (id : Nat)
deriving DecidableEq, Repr

/-- The state of the logging subsystem the script reads: every object
identity resolves to logger data, `rootId` is the identity of the root
logger, and `dict` is `loggerDict.items()` in iteration order. -/
structure Registry where
  loggers : Nat → LoggerData
  rootId : Nat
  dict : List (String × Entry)

/-- `Logger.getEffectiveLevel`: walk the parent chain until a nonzero
level is found, else `NOTSET`.  The walk is fuelled; the real method
would not return on a cyclic parent chain. -/
def effective_walk (R : Registry) : Option Nat → Nat → Int
  | _, 0 => 0
  | none, _ => 0
  | some i, fuel + 1 =>
    let d := R.loggers i
    if d.level ≠ 0 then d.level else effective_walk R d.parent fuel

/-- `getEffectiveLevel` with fuel covering every acyclic chain: a chain of
distinct loggers has at most one node per registry entry plus the root. -/
def getEffectiveLevel (R : Registry) (i : Nat) : Int :=
  effective_walk R (some i) (R.dict.length + 2)

/-- The dictionary returned by `get_logger_info`.  The `parent` field is
the parent name when the `parent` attribute is set and `None` (here:
`none`) otherwise, exactly as in the source. -/
structure LoggerInfo where
  name : String
  level : String
  level_num : Int
  effective_level : String
  effective_level_num : Int
  propagate : Bool
  disabled : Bool
  handlers : List HandlerInfo
  filters : List String
  parent : Option String
deriving DecidableEq, Repr

/-- `get_logger_info`. -/
def get_logger_info (R : Registry) (i : Nat) : LoggerInfo :=
  let d := R.loggers i
  { name := d.name
    level := getLevelName d.level
    level_num := d.level
    effective_level := getLevelName (getEffectiveLevel R i)
    effective_level_num := getEffectiveLevel R i
    propagate := d.propagate
    disabled := d.disabled
    handlers := d.handlers.map get_handler_info
    filters := d.filters
    parent := d.parent.map fun p => (R.loggers p).name }

/-- `"=" * 50`. -/
def sep50 : String := String.mk (List.replicate 50 '=')

/-- `"=" * 60`. -/
def sep60 : String := String.mk (List.replicate 60 '=')

/-- `"-" * 30`. -/
def dash30 : String := String.mk (List.replicate 30 '-')

/-- The per-handler block of `show_root_logger`: `Handler i:`, the full
details, the process-local id, and the defining module when present. -/
def root_handler_block (i : Nat) (h : Handler) : List String :=
  ("Handler " ++ toString i ++ ":")
  :: print_handler_details (get_handler_info h) "    "
  ++ ["    Handler ID: " ++ toString h.objId]
  ++ (match h.module with
      | some m => ["    Module: " ++ m]
      | none => [])
  ++ [""]

/-- The 1-based `enumerate` loop over the root handlers. -/
def root_handler_blocks : Nat → List Handler → List String
  | _, [] => []
  | i, h :: rest => root_handler_block i h ++ root_handler_blocks (i + 1) rest

/-- `show_root_logger`: the lines it prints. -/
def show_root_logger (R : Registry) : List String :=
  let root_info := get_logger_info R R.rootId
  ["🌟 ROOT LOGGER", sep50,
   "Level: " ++ root_info.level ++ " (" ++ toString root_info.level_num ++ ")",
   "Effective Level: " ++ root_info.effective_level ++ " ("
     ++ toString root_info.effective_level_num ++ ")",
   "Disabled: " ++ pyBool root_info.disabled,
   "Handlers: " ++ toString root_info.handlers.length]
  ++ (if root_info.filters.isEmpty then ["Filters: None"]
      else ["Filters: " ++ String.intercalate ", " root_info.filters])
  ++ [""]
  ++ (if root_info.handlers.isEmpty then ["📋 ROOT LOGGER HANDLERS: None", ""]
      else ["📋 ROOT LOGGER HANDLERS", dash30]
        ++ root_handler_blocks 1 (R.loggers R.rootId).handlers)

/-- `sorted(logger_dict.items())`: Python `sorted` is a stable sort and
dict keys are distinct, so it is the stable sort by key under code-point
lexicographic order. -/
def sorted_loggers (dict : List (String × Entry)) : List (String × Entry) :=
  List.insertionSort (fun p q => charsLe p.1.data q.1.data = true) dict

/-- `logger_info["parent"] or "root"` as printed by `show_all_loggers`:
Python `or` replaces both `None` and the empty string by `"root"`. -/
def parent_display : Option String → String
  | some p => if p = "" then "root" else p
  | none => "root"

/-- The `Handler i: Type (Level: ...)` enumeration lines of
`show_all_loggers`. -/
def brief_handler_lines : Nat → List HandlerInfo → List String
  | _, [] => []
  | i, hi :: rest =>
    ("    Handler " ++ toString i ++ ": " ++ hi.type ++ " (Level: " ++ hi.level ++ ")")
      :: brief_handler_lines (i + 1) rest

/-- The block `show_all_loggers` prints for one real (non-placeholder)
registry entry: the full `get_logger_info` summary plus one line per
handler. -/
def real_logger_block (R : Registry) (nm : String) (cid : Nat) : List String :=
  let info := get_logger_info R cid
  ["📖 " ++ nm,
   "  Level: " ++ info.level ++ " (" ++ toString info.level_num ++ ")",
   "  Effective Level: " ++ info.effective_level ++ " ("
     ++ toString info.effective_level_num ++ ")",
   "  Propagate: " ++ pyBool info.propagate,
   "  Disabled: " ++ pyBool info.disabled,
   "  Parent: " ++ parent_display info.parent,
   "  Handlers: " ++ toString info.handlers.length]
  ++ (if info.filters.isEmpty then []
      else ["  Filters: " ++ String.intercalate ", " info.filters])
  ++ brief_handler_lines 1 info.handlers
  ++ [""]

/-- The `for name, logger_obj in sorted_loggers` loop of
`show_all_loggers`: placeholders get one tagged line and `continue`. -/
def all_loggers_loop (R : Registry) : List (String × Entry) → List String
  | [] => []
  | (nm, e) :: rest =>
    (match e with
     | .placeholder => ["📍 " ++ nm ++ " (PlaceHolder)"]
     | .logger cid => real_logger_block R nm cid)
    ++ all_loggers_loop R rest

/-- `show_all_loggers`: the lines it prints. -/
def show_all_loggers (R : Registry) : List String :=
  ["📚 ALL LOGGERS", sep50]
  ++ (if R.dict.isEmpty then ["No named loggers configured."]
      else
        let s := sorted_loggers R.dict
        ("Total loggers: " ++ toString s.length) :: ""
          :: all_loggers_loop R s)

/-- The child collection of `print_logger_tree`: real registry loggers
whose recorded `parent` reference is identical to the current logger,
then `children.sort(key=lambda x: x.name)`. -/
def childrenOf (R : Registry) (i : Nat) : List Nat :=
  List.insertionSort
    (fun c d => charsLe (R.loggers c).name.data (R.loggers d).name.data = true)
    (R.dict.filterMap fun p =>
      match p.2 with
      | .logger cid => if (R.loggers cid).parent = some i then some cid else none
      | .placeholder => none)

/-- The line `print_logger_tree` prints for one node. -/
def node_line (R : Registry) (i : Nat) (indent : Nat) : String :=
  let d := R.loggers i
  let nm := if d.name = "" then "root" else d.name
  let handlers_info :=
    if d.handlers.isEmpty then "(no handlers)"
    else "(" ++ toString d.handlers.length ++ " handlers)"
  String.join (List.replicate indent "  ")
    ++ "├─ " ++ nm ++ " [Level: " ++ toString (getEffectiveLevel R i) ++ "] "
    ++ handlers_info

/-- Run an option-valued function over a list, collecting all results. -/
def traverseOpt (f : α → Option β) : List α → Option (List β)
  | [] => some []
  | a :: as =>
    match f a, traverseOpt f as with
    | some b, some bs => some (b :: bs)
    | _, _ => none

/-- `print_logger_tree`, fuelled: `none` means the fuel ran out before the
recursion over identical-parent children finished.  Structurally recursive
on the fuel so that it evaluates in the kernel. -/
def print_logger_tree (R : Registry) : Nat → Nat → Nat → Option (List String)
  | _, _, 0 => none
  | i, indent, fuel + 1 =>
    (traverseOpt (fun c => print_logger_tree R c (indent + 1) fuel) (childrenOf R i)).map
      fun subs => node_line R i indent :: subs.flatten

/-- `show_logger_hierarchy`: header, the tree walk from the root logger,
and a closing blank line.  One fuel unit per registry entry plus the root
covers every acyclic registry. -/
def show_logger_hierarchy (R : Registry) : Option (List String) :=
  (print_logger_tree R R.rootId 0 (R.dict.length + 1)).map
    fun body => ["🌳 LOGGER HIERARCHY", sep50] ++ body ++ [""]

/-- The `(logger_name, handler)` pairs collected by
`show_handler_summary`: root handlers first, then the handlers of every
real registered logger in registry iteration order. -/
def all_handlers (R : Registry) : List (String × Handler) :=
  (R.loggers R.rootId).handlers.map (fun h => ("root", h))
  ++ R.dict.flatMap fun p =>
      match p.2 with
      | .logger cid => (R.loggers cid).handlers.map fun h => (p.1, h)
      | .placeholder => []

/-- One step of building the `handler_types` dictionary: append the pair
to the existing group for its class name, or open a new group at the end. -/
def add_to_groups (groups : List (String × List (String × Handler)))
    (x : String × Handler) : List (String × List (String × Handler)) :=
  let ty := className x.2.cls
  if groups.any (fun g => g.1 == ty) then
    groups.map fun g => if g.1 == ty then (g.1, g.2 ++ [x]) else g
  else groups ++ [(ty, [x])]

/-- The `handler_types` dictionary: keys in first-appearance order,
members in collection order. -/
def handler_types (R : Registry) : List (String × List (String × Handler)) :=
  (all_handlers R).foldl add_to_groups []

/-- `sorted(handler_types.items())`. -/
def sorted_handler_types (R : Registry) : List (String × List (String × Handler)) :=
  List.insertionSort (fun g h => charsLe g.1.data h.1.data = true) (handler_types R)

/-- The block `show_handler_summary` prints for one group. -/
def group_block (g : String × List (String × Handler)) : List String :=
  ("📌 " ++ g.1 ++ " (" ++ toString g.2.length ++ " instances)")
    :: g.2.map (fun p => "  └─ Logger: " ++ p.1 ++ ", Level: " ++ getLevelName p.2.level)
  ++ [""]

/-- `show_handler_summary`: the lines it prints. -/
def show_handler_summary (R : Registry) : List String :=
  ["🔧 HANDLER SUMMARY", sep50,
   "Total handlers: " ++ toString (all_handlers R).length,
   "Handler types: " ++ toString (handler_types R).length,
   ""]
  ++ (sorted_handler_types R).flatMap group_block

/-- Values the script reads from the interpreter rather than from the
logging registry. -/
structure Env where
  pythonVersion : String
  loggingFile : String
  lastResortRepr : String
  captureWarningsDefaults : String

/-- The fixed `levels` table of `show_logging_config`, highest severity
first, ending with `NOTSET`. -/
def level_table : List (Int × String) :=
  [(50, "CRITICAL"), (40, "ERROR"), (30, "WARNING"),
   (20, "INFO"), (10, "DEBUG"), (0, "NOTSET")]

/-- `show_logging_config`: the lines it prints. -/
def show_logging_config (env : Env) (R : Registry) : List String :=
  ["⚙️  LOGGING CONFIGURATION", sep50,
   "Python version: " ++ env.pythonVersion,
   "Logging module: " ++ env.loggingFile,
   "",
   "Global Settings:",
   "  Root logger level: " ++ getLevelName (R.loggers R.rootId).level,
   "  Last resort handler: " ++ env.lastResortRepr,
   "  Capture warnings: " ++ env.captureWarningsDefaults,
   "",
   "Level Names:"]
  ++ level_table.map (fun p => "  " ++ p.2 ++ ": " ++ toString p.1)
  ++ [""]

/-- `main`: banner, the global configuration report, the root logger
report, and the completion marker.  The calls to `show_all_loggers`,
`show_logger_hierarchy` and `show_handler_summary` are commented out in
the source and do not appear here. -/
def main (env : Env) (R : Registry) : List String :=
  ["🔍 PYTHON LOGGING INSPECTOR"] ++ [sep60] ++ [""]
  ++ show_logging_config env R
  ++ show_root_logger R
  ++ ["✅ Inspection complete!"]

end WhoLog

namespace WhoLog

/-! Concrete sample objects used by the witness theorems. -/

/-- A console handler: a plain `StreamHandler` on `<stderr>` with no
formatter and no filters. -/
def consoleH : Handler :=
  { cls := .streamHandler, level := 30, formatter := none,
    stream := some ⟨true, some "<stderr>", "<ios>"⟩,
    baseFilename := none, mode := none, encoding := none,
    maxBytes := none, backupCount := none, whenV := none, interval := none,
    filters := [], objId := 140100, module := some "logging" }

/-- A size-based rotating file handler with all its rotation attributes
present. -/
def rotH : Handler :=
  { cls := .rotatingFileHandler, level := 20,
    formatter := none,
    stream := some ⟨true, none, "<file app.log>"⟩,
    baseFilename := some (.pstr "app.log"), mode := some (.pstr "a"),
    encoding := some .pnone,
    maxBytes := some (.pint 1000000), backupCount := some (.pint 5),
    whenV := none, interval := none,
    filters := [], objId := 140200, module := some "logging.handlers" }

/-- A time-based rotating file handler with all its rotation attributes
present. -/
def timedH : Handler :=
  { cls := .timedRotatingFileHandler, level := 20,
    formatter := none,
    stream := some ⟨true, none, "<file app.log>"⟩,
    baseFilename := some (.pstr "app.log"), mode := some (.pstr "a"),
    encoding := some .pnone,
    maxBytes := none, backupCount := some (.pint 7),
    whenV := some (.pstr "midnight"), interval := some (.pint 1),
    filters := [], objId := 140300, module := some "logging.handlers" }

/-- A formatter none of whose inspected attributes exists. -/
def bareFmt : Formatter := { fmtStr := none, datefmt := none, style := none }

/-- A handler none of whose dynamically inspected attributes exists,
carrying `bareFmt`. -/
def bareH : Handler :=
  { cls := .streamHandler, level := 0, formatter := some bareFmt,
    stream := none, baseFilename := none, mode := none, encoding := none,
    maxBytes := none, backupCount := none, whenV := none, interval := none,
    filters := [], objId := 140400, module := none }

/-- Logger data of the sample registry, by object identity: the root
logger (identity 0) and the named loggers `a`, `a.b`, `x.y.z` plus a
detached parentless logger (identity 7). -/
def RcLoggers : Nat → LoggerData := fun i =>
  match i with
  | 1 => { name := "a", level := 0, propagate := true, disabled := false,
           parent := some 0, handlers := [], filters := [] }
  | 2 => { name := "a.b", level := 10, propagate := true, disabled := false,
           parent := some 1, handlers := [consoleH], filters := [] }
  | 3 => { name := "x.y.z", level := 0, propagate := true, disabled := false,
           parent := some 0, handlers := [], filters := [] }
  | 7 => { name := "detached", level := 0, propagate := true, disabled := false,
           parent := none, handlers := [], filters := [] }
  | _ => { name := "root", level := 30, propagate := true, disabled := false,
           parent := none, handlers := [consoleH], filters := [] }

/-- A sample registry: `x.y.z` was created without its ancestors and so
hangs directly off the root, `zz` is a placeholder. -/
def Rc : Registry :=
  { loggers := RcLoggers, rootId := 0,
    dict := [("x.y.z", .logger 3), ("a.b", .logger 2), ("a", .logger 1),
             ("zz", .placeholder)] }

/-- Depth of each sample logger below the root, the ranking that
witnesses acyclicity of `Rc`. -/
def rkc : Nat → Nat := fun i =>
  match i with
  | 1 => 1
  | 2 => 2
  | 3 => 1
  | _ => 0

/-- Decidable per-entry form of the acyclicity ranking condition: every
real registry entry has rank at most `N`, one more than the rank of its
recorded parent. -/
def entryOk (R : Registry) (rk : Nat → Nat) (N : Nat) (p : String × Entry) : Bool :=
  match p.2 with
  | .logger cid =>
    decide (rk cid ≤ N) &&
      (match (R.loggers cid).parent with
       | some q => rk cid == rk q + 1
       | none => true)
  | .placeholder => true

/-! Order lemmas for the embedded Python string comparison. -/

theorem char_eq_of_toNat_eq {a b : Char} (h : a.toNat = b.toNat) : a = b := by
  unfold Char.toNat at h
  apply Char.eq_of_val_eq
  apply UInt32.eq_of_toBitVec_eq
  apply BitVec.eq_of_toNat_eq
  simpa [UInt32.toNat] using h

theorem charsLe_total : ∀ a b : List Char, charsLe a b = true ∨ charsLe b a = true := by
  intro a
  induction a with
  | nil => intro b; left; rfl
  | cons x xs ih =>
    intro b
    cases b with
    | nil => right; rfl
    | cons y ys =>
      simp only [charsLe]
      rcases ih ys with h | h <;> split_ifs <;> simp_all
  
theorem charsLe_trans : ∀ a b c : List Char,
    charsLe a b = true → charsLe b c = true → charsLe a c = true := by
  intro a
  induction a with
  | nil => intro b c _ _; rfl
  | cons x xs ih =>
    intro b c h1 h2
    cases b with
    | nil => simp [charsLe] at h1
    | cons y ys =>
      cases c with
      | nil => simp [charsLe] at h2
      | cons z zs =>
        simp only [charsLe] at h1 h2 ⊢
        split_ifs at h1 h2 ⊢ <;> simp_all <;> first | omega | exact ih ys zs h1 h2

theorem charsLe_antisymm : ∀ a b : List Char,
    charsLe a b = true → charsLe b a = true → a = b := by
  intro a
  induction a with
  | nil =>
    intro b _ h2
    cases b with
    | nil => rfl
    | cons y ys => simp [charsLe] at h2
  | cons x xs ih =>
    intro b h1 h2
    cases b with
    | nil => simp [charsLe] at h1
    | cons y ys =>
      simp only [charsLe] at h1 h2
      split_ifs at h1 h2 <;> simp_all <;>
        first
        | omega
        | (have hxy : x = y := char_eq_of_toNat_eq (by omega)
           exact ⟨hxy, ih ys h1 h2⟩)

theorem charsLt_of_le_of_ne : ∀ a b : List Char,
    charsLe a b = true → a ≠ b → charsLt a b = true := by
  intro a
  induction a with
  | nil =>
    intro b _ hne
    cases b with
    | nil => exact absurd rfl hne
    | cons y ys => rfl
  | cons x xs ih =>
    intro b h1 hne
    cases b with
    | nil => simp [charsLe] at h1
    | cons y ys =>
      simp only [charsLe] at h1
      simp only [charsLt]
      by_cases hlt : x.toNat < y.toNat
      · simp [hlt]
      · by_cases hgt : y.toNat < x.toNat
        · simp [hlt, hgt] at h1
        · have hxy : x = y := char_eq_of_toNat_eq (by omega)
          subst hxy
          simp only [hlt, hgt, if_false, if_neg] at h1 ⊢
          exact ih ys h1 (by intro hh; exact hne (by rw [hh]))

/-- `insertionSort` by a `charsLe` key is sorted for that key. -/
theorem pairwise_le_insertionSort {α : Type} (key : α → List Char) (l : List α) :
    (List.insertionSort (fun a b => charsLe (key a) (key b) = true) l).Pairwise
      (fun a b => charsLe (key a) (key b) = true) := by
  have := @List.sorted_insertionSort α (fun a b => charsLe (key a) (key b) = true)
    (fun a b => instDecidableEqBool _ _)
    ⟨fun a b => charsLe_total (key a) (key b)⟩
    ⟨fun a b c => charsLe_trans (key a) (key b) (key c)⟩ l
  exact this

/-- A `charsLe`-sorted list with pairwise-distinct string keys is
strictly sorted. -/
theorem pairwise_lt_of_le_of_nodup {α : Type} {key : α → String} {l : List α}
    (hs : l.Pairwise (fun a b => charsLe (key a).data (key b).data = true))
    (hn : (l.map key).Nodup) :
    l.Pairwise (fun a b => charsLt (key a).data (key b).data = true) := by
  have hn' : l.Pairwise (fun a b => key a ≠ key b) := List.pairwise_map.mp hn
  refine (hs.and hn').imp ?_
  rintro a b ⟨hle, hne⟩
  exact charsLt_of_le_of_ne _ _ hle (fun h => hne (String.ext h))

/-- A traversal of everywhere-defined options is defined. -/
theorem traverseOpt_isSome {α β : Type} {f : α → Option β} :
    ∀ {l : List α}, (∀ a ∈ l, (f a).isSome = true) → (traverseOpt f l).isSome = true := by
  intro l
  induction l with
  | nil => intro _; rfl
  | cons a as ih =>
    intro h
    have ha := h a (by simp)
    have has := ih fun b hb => h b (by simp [hb])
    simp only [traverseOpt]
    cases hfa : f a with
    | none => rw [hfa] at ha; simp at ha
    | some b =>
      cases hrest : traverseOpt f as with
      | none => rw [hrest] at has; simp at has
      | some bs => rfl

/-- Membership in the child list of `print_logger_tree`: exactly the real
registry entries whose recorded parent reference is the current logger. -/
theorem childrenOf_mem {R : Registry} {i c : Nat} :
    c ∈ childrenOf R i ↔
      (∃ nm, (nm, Entry.logger c) ∈ R.dict) ∧ (R.loggers c).parent = some i := by
  unfold childrenOf
  rw [(List.perm_insertionSort _ _).mem_iff, List.mem_filterMap]
  constructor
  · rintro ⟨⟨nm, e⟩, hmem, hf⟩
    cases e with
    | placeholder => simp at hf
    | logger cid =>
      simp only at hf
      split_ifs at hf with hp
      obtain rfl : cid = c := by simpa using hf
      exact ⟨⟨nm, hmem⟩, hp⟩
  · rintro ⟨⟨nm, hmem⟩, hp⟩
    exact ⟨(nm, Entry.logger c), hmem, by simp [hp]⟩

/-- The `show_all_loggers` loop is the concatenation of the per-entry
blocks in list order. -/
theorem all_loggers_loop_eq (R : Registry) :
    ∀ l : List (String × Entry),
      all_loggers_loop R l = l.flatMap fun p =>
        match p.2 with
        | Entry.placeholder => ["📍 " ++ p.1 ++ " (PlaceHolder)"]
        | Entry.logger cid => real_logger_block R p.1 cid := by
  intro l
  induction l with
  | nil => rfl
  | cons p rest ih =>
    obtain ⟨nm, e⟩ := p
    cases e <;> simp [all_loggers_loop, List.flatMap_cons, ih]

/-- Updating the group of one class name never changes the key list. -/
theorem keys_map_update (ty : String) (x : String × Handler) :
    ∀ gs : List (String × List (String × Handler)),
      ((gs.map fun g => if g.1 == ty then (g.1, g.2 ++ [x]) else g).map Prod.fst)
        = gs.map Prod.fst := by
  intro gs
  induction gs with
  | nil => rfl
  | cons g rest ih =>
    simp only [List.map_cons, ih]
    split_ifs <;> rfl

/-- Appending to a class whose key nowhere occurs changes nothing. -/
theorem map_update_id (ty : String) (x : String × Handler) :
    ∀ gs : List (String × List (String × Handler)),
      (∀ g ∈ gs, (g.1 == ty) = false) →
      (gs.map fun g => if g.1 == ty then (g.1, g.2 ++ [x]) else g) = gs := by
  intro gs
  induction gs with
  | nil => intro _; rfl
  | cons g rest ih =>
    intro h
    have hg := h g (by simp)
    simp only [List.map_cons, hg, ih fun g' hg' => h g' (by simp [hg'])]
    simp [hg]

/-- Appending one member to the group of a present key, with pairwise
distinct keys, grows the total member count by exactly one. -/
theorem sum_map_update (ty : String) (x : String × Handler) :
    ∀ gs : List (String × List (String × Handler)),
      (gs.map Prod.fst).Nodup → gs.any (fun g => g.1 == ty) = true →
      ((gs.map fun g => if g.1 == ty then (g.1, g.2 ++ [x]) else g).map
          fun g => g.2.length).sum
        = ((gs.map fun g => g.2.length).sum) + 1 := by
  intro gs
  induction gs with
  | nil => intro _ h; simp at h
  | cons g rest ih =>
    intro hnd hany
    simp only [List.map_cons, List.nodup_cons] at hnd
    by_cases hg : (g.1 == ty) = true
    · have hty : g.1 = ty := eq_of_beq hg
      have hrest : ∀ g' ∈ rest, (g'.1 == ty) = false := by
        intro g' hg'
        have : g.1 ∉ rest.map Prod.fst := hnd.1
        rw [Bool.eq_false_iff]
        intro hb
        exact this (by rw [hty, ← eq_of_beq hb]; exact List.mem_map_of_mem _ hg')
      simp only [List.map_cons, hg, if_pos, map_update_id ty x rest hrest]
      simp [Nat.add_comm, Nat.add_assoc, Nat.add_left_comm]
    · have hg' : (g.1 == ty) = false := by simpa using hg
      have hany' : rest.any (fun g => g.1 == ty) = true := by
        simp only [List.any_cons, hg'] at hany
        simpa using hany
      simp only [List.map_cons, hg', if_neg, Bool.false_eq_true, not_false_iff]
      simp only [List.sum_cons]
      rw [ih hnd.2 hany']
      omega

/-- One grouping step keeps the keys pairwise distinct and grows the
total member count by one. -/
theorem add_to_groups_invariant (x : String × Handler)
    (gs : List (String × List (String × Handler)))
    (hnd : (gs.map Prod.fst).Nodup) :
    ((add_to_groups gs x).map Prod.fst).Nodup ∧
      ((add_to_groups gs x).map fun g => g.2.length).sum
        = ((gs.map fun g => g.2.length).sum) + 1 := by
  unfold add_to_groups
  cases hany : gs.any (fun g => g.1 == className x.2.cls) with
  | true =>
    simp only [hany, if_pos]
    exact ⟨by rw [keys_map_update]; exact hnd,
           sum_map_update _ x gs hnd hany⟩
  | false =>
    simp only [hany, Bool.false_eq_true, if_neg, not_false_iff]
    rw [List.any_eq_false] at hany
    constructor
    · rw [List.map_append, List.nodup_append]
      refine ⟨hnd, by simp, ?_⟩
      intro a ha hb
      simp only [List.map_cons, List.map_nil, List.mem_singleton] at hb
      subst hb
      obtain ⟨g, hg, hgeq⟩ := List.mem_map.mp ha
      exact hany g hg (by simp [hgeq])
    · simp

/-- Folding the grouping step over any pair list keeps keys pairwise
distinct and makes the total member count the input length. -/
theorem foldl_add_to_groups (l : List (String × Handler)) :
    ∀ gs : List (String × List (String × Handler)),
      (gs.map Prod.fst).Nodup →
      ((List.foldl add_to_groups gs l).map Prod.fst).Nodup ∧
        ((List.foldl add_to_groups gs l).map fun g => g.2.length).sum
          = ((gs.map fun g => g.2.length).sum) + l.length := by
  induction l with
  | nil => intro gs h; exact ⟨h, by simp⟩
  | cons x xs ih =>
    intro gs h
    have step := add_to_groups_invariant x gs h
    have rest := ih (add_to_groups gs x) step.1
    refine ⟨rest.1, ?_⟩
    rw [List.foldl_cons] at *
    rw [rest.2, step.2]
    simp [Nat.add_comm, Nat.add_assoc, Nat.add_left_comm]

/-- The length of `all_handlers`: the root handler count plus the handler
count of every real registry entry. -/
theorem all_handlers_length (R : Registry) :
    (all_handlers R).length
      = (R.loggers R.rootId).handlers.length
        + (R.dict.map fun p =>
            match p.2 with
            | Entry.logger cid => (R.loggers cid).handlers.length
            | Entry.placeholder => 0).sum := by
  unfold all_handlers
  rw [List.length_append, List.length_map, List.length_flatMap]
  congr 1
  congr 1
  apply List.map_congr_left
  intro p _
  obtain ⟨nm, e⟩ := p
  cases e <;> simp

/-- C1: the claim says a size-based rotating file handler is mapped with
`maxBytes` and `backupCount` and a time-based one with `when`, `interval`
and `backupCount`, the rotating kinds being evaluated as their own
categories.  The code contradicts this: both rotating classes subclass
`FileHandler`, whose branch is checked first, so even with the
`hasattr(logging, ...)` guards forced to true the rotating branches are
unreachable and rotating handlers are mapped with the plain file fields
only. -/
theorem C1_rotating_branches_unreachable :
    (get_handler_infoG true true rotH).extras = file_extras rotH
    ∧ (get_handler_infoG true true rotH).extras.lookup "maxBytes" = none
    ∧ (get_handler_infoG true true rotH).extras.lookup "backupCount" = none
    ∧ (get_handler_infoG true true timedH).extras = file_extras timedH
    ∧ (get_handler_infoG true true timedH).extras.lookup "when" = none
    ∧ (get_handler_infoG true true timedH).extras.lookup "interval" = none
    ∧ (get_handler_info rotH).extras.lookup "maxBytes" = none
    ∧ (get_handler_info timedH).extras.lookup "when" = none := by
  decide

/-- C2: a logger is printed as a child of the current node exactly when it
is a real registry entry whose recorded parent reference is identical to
the current logger (no name condition, so a multi-dot name whose parent is
the root is a direct child of the root), the children are sorted by name
before recursing, and one step of the tree printer is the node line
followed by the subtrees of exactly those children. -/
theorem C2_hierarchy_child_discovery (R : Registry) (i : Nat) :
    (∀ c, c ∈ childrenOf R i ↔
        (∃ nm, (nm, Entry.logger c) ∈ R.dict) ∧ (R.loggers c).parent = some i)
    ∧ ((childrenOf R i).map fun c => (R.loggers c).name).Pairwise
        (fun a b => charsLe a.data b.data = true)
    ∧ ∀ ind fuel, print_logger_tree R i ind (fuel + 1)
        = (traverseOpt (fun c => print_logger_tree R c (ind + 1) fuel)
            (childrenOf R i)).map
            fun subs => node_line R i ind :: subs.flatten := by
  refine ⟨fun c => childrenOf_mem, ?_, fun ind fuel => rfl⟩
  rw [List.pairwise_map]
  exact pairwise_le_insertionSort (fun c => (R.loggers c).name.data) _

/-- C3: with its pairwise-distinct dict keys, the all-loggers report
prints the registry entries in strictly increasing name order, each
placeholder as the single tagged name-only line and each real logger as
the full inspector block. -/
theorem C3_all_loggers_sorted_and_tagged (R : Registry)
    (hnd : (R.dict.map Prod.fst).Nodup) (hne : R.dict ≠ []) :
    ((sorted_loggers R.dict).map Prod.fst).Pairwise
        (fun a b => charsLt a.data b.data = true)
    ∧ show_all_loggers R
      = ["📚 ALL LOGGERS", sep50,
         "Total loggers: " ++ toString (sorted_loggers R.dict).length, ""]
        ++ (sorted_loggers R.dict).flatMap (fun p =>
            match p.2 with
            | Entry.placeholder => ["📍 " ++ p.1 ++ " (PlaceHolder)"]
            | Entry.logger cid => real_logger_block R p.1 cid) := by
  constructor
  · rw [List.pairwise_map]
    apply pairwise_lt_of_le_of_nodup
    · exact pairwise_le_insertionSort (fun p => p.1.data) R.dict
    · exact ((List.perm_insertionSort _ _).map Prod.fst).nodup_iff.mpr hnd
  · have hemp : R.dict.isEmpty = false := List.isEmpty_eq_false.mpr hne
    simp only [show_all_loggers, hemp, Bool.false_eq_true, if_neg,
      not_false_iff, all_loggers_loop_eq]
    simp

/-- C3 witness: the sample registry has pairwise distinct keys and its
sorted entry names are strictly increasing. -/
theorem C3_w :
    (Rc.dict.map Prod.fst).Nodup
    ∧ ((sorted_loggers Rc.dict).map Prod.fst).Pairwise
        (fun a b => charsLt a.data b.data = true) :=
  ⟨by decide, (C3_all_loggers_sorted_and_tagged Rc (by decide) (by decide)).1⟩

/-- C4: the handler summary groups are printed in strictly increasing
class-name order and the instance counts over all printed groups sum to
the root handler count plus the handler count of every real registry
entry (placeholders contributing nothing). -/
theorem C4_handler_summary_groups (R : Registry) :
    ((sorted_handler_types R).map Prod.fst).Pairwise
        (fun a b => charsLt a.data b.data = true)
    ∧ ((sorted_handler_types R).map fun g => g.2.length).sum
        = (R.loggers R.rootId).handlers.length
          + (R.dict.map fun p =>
              match p.2 with
              | Entry.logger cid => (R.loggers cid).handlers.length
              | Entry.placeholder => 0).sum := by
  have base := foldl_add_to_groups (all_handlers R) [] (by simp)
  constructor
  · rw [List.pairwise_map]
    apply pairwise_lt_of_le_of_nodup
    · exact pairwise_le_insertionSort (fun g => g.1.data) (handler_types R)
    · exact ((List.perm_insertionSort _ _).map Prod.fst).nodup_iff.mpr base.1
  · have hperm : ((sorted_handler_types R).map fun g => g.2.length).sum
        = ((handler_types R).map fun g => g.2.length).sum :=
      ((List.perm_insertionSort _ _).map _).sum_eq
    rw [hperm]
    have hsum := base.2
    simp only [List.map_nil, List.sum_nil, Nat.zero_add] at hsum
    rw [show ((handler_types R).map fun g => g.2.length).sum
          = (all_handlers R).length from hsum, all_handlers_length]

/-- C5: a handler without an attached formatter is mapped with the
explicit `None` sentinel in the formatter field, and the detail printer
renders the `Formatter: None` line for it; the inspection is total. -/
theorem C5_formatter_none (g1 g2 : Bool) (h : Handler) (indent : String)
    (hf : h.formatter = none) :
    (get_handler_infoG g1 g2 h).formatter = none
    ∧ (indent ++ "Formatter: None") ∈
        print_handler_details (get_handler_infoG g1 g2 h) indent := by
  have h1 : (get_handler_infoG g1 g2 h).formatter = none := by
    simp [get_handler_infoG, hf]
  refine ⟨h1, ?_⟩
  unfold print_handler_details
  rw [h1]
  simp [List.mem_append]

/-- C5 witness: the unformatted sample console handler. -/
theorem C5_w :
    (get_handler_infoG false false consoleH).formatter = none
    ∧ ("    " ++ "Formatter: None") ∈
        print_handler_details (get_handler_infoG false false consoleH) "    " :=
  C5_formatter_none false false consoleH "    " rfl

/-- C6 counterexample: for the parentless sample logger the inspector
mapping does not contain the `"root"` sentinel in its parent field; it
contains `None`. -/
theorem C6_counterexample :
    (get_logger_info Rc 7).parent = none
    ∧ (get_logger_info Rc 7).parent ≠ some "root" := by
  decide

/-- C6 (amended): the inspector mapping contains the parent name when a
parent reference exists and the `None` sentinel when there is none; the
report layer is what renders a missing parent as the `"root"` sentinel. -/
theorem C6_parent_field (R : Registry) (i : Nat) :
    (get_logger_info R i).parent
        = ((R.loggers i).parent).map (fun q => (R.loggers q).name)
    ∧ ((R.loggers i).parent = none →
        parent_display (get_logger_info R i).parent = "root") := by
  refine ⟨rfl, fun hp => ?_⟩
  simp [get_logger_info, hp, parent_display]

/-- C6 witness: the parentless sample logger, whose mapping holds `none`
and whose report line renders `root`. -/
theorem C6_w :
    (get_logger_info Rc 7).parent
        = ((Rc.loggers 7).parent).map (fun q => (Rc.loggers q).name)
    ∧ parent_display (get_logger_info Rc 7).parent = "root" :=
  ⟨(C6_parent_field Rc 7).1, (C6_parent_field Rc 7).2 rfl⟩

/-- C7: every field extraction of the handler inspector is defensive:
when an inspected attribute is absent the extraction substitutes the
`"N/A"` sentinel (shown here for the formatter fields, the file fields,
both rotating-branch field sets, and the stream field), and the extras of
the mapping are always the result of one of the closed branch bodies, so
the inspector returns normally on every handler. -/
theorem C7_defensive_na (g1 g2 : Bool) (h : Handler) (f : Formatter)
    (hf : h.formatter = some f)
    (h1 : f.fmtStr = none) (h2 : f.datefmt = none) (h3 : f.style = none)
    (h4 : h.baseFilename = none) (h5 : h.mode = none) (h6 : h.encoding = none)
    (h7 : h.maxBytes = none) (h8 : h.backupCount = none)
    (h9 : h.whenV = none) (h10 : h.interval = none) (h11 : h.stream = none) :
    (get_handler_infoG g1 g2 h).formatter
        = some ⟨PyVal.pstr "N/A", PyVal.pstr "N/A", PyVal.pstr "N/A"⟩
    ∧ file_extras h = [("filename", PyVal.pstr "N/A"), ("mode", PyVal.pstr "N/A"),
        ("encoding", PyVal.pstr "N/A")]
    ∧ rotating_extras h = [("filename", PyVal.pstr "N/A"),
        ("maxBytes", PyVal.pstr "N/A"), ("backupCount", PyVal.pstr "N/A")]
    ∧ timed_extras h = [("filename", PyVal.pstr "N/A"), ("when", PyVal.pstr "N/A"),
        ("interval", PyVal.pstr "N/A"), ("backupCount", PyVal.pstr "N/A")]
    ∧ stream_field h = PyVal.pstr "N/A"
    ∧ ((get_handler_infoG g1 g2 h).extras = file_extras h
       ∨ (get_handler_infoG g1 g2 h).extras = [("stream", stream_field h)]
       ∨ (get_handler_infoG g1 g2 h).extras = rotating_extras h
       ∨ (get_handler_infoG g1 g2 h).extras = timed_extras h
       ∨ (get_handler_infoG g1 g2 h).extras = []) := by
  refine ⟨?_, ?_, ?_, ?_, ?_, ?_⟩
  · simp [get_handler_infoG, hf, h1, h2, h3, naDefault]
  · simp [file_extras, h4, h5, h6, naDefault]
  · simp [rotating_extras, h4, h7, h8, naDefault]
  · simp [timed_extras, h4, h9, h10, h8, naDefault]
  · simp [stream_field, h11]
  · simp only [get_handler_infoG]
    split_ifs <;> tauto

/-- C7 witness: the attribute-free sample handler. -/
theorem C7_w :
    stream_field bareH = PyVal.pstr "N/A"
    ∧ file_extras bareH = [("filename", PyVal.pstr "N/A"),
        ("mode", PyVal.pstr "N/A"), ("encoding", PyVal.pstr "N/A")] := by
  have hall := C7_defensive_na false false bareH bareFmt rfl rfl rfl rfl rfl rfl
    rfl rfl rfl rfl rfl rfl
  exact ⟨hall.2.2.2.2.1, hall.2.1⟩

/-- C8: the default entry point emits the banner, then exactly the global
configuration report followed by the root logger report, and ends with
the completion marker line; the other three reports remain separate
functions that `main` never references. -/
theorem C8_main_sections (env : Env) (R : Registry) :
    main env R
      = ["🔍 PYTHON LOGGING INSPECTOR", sep60, ""]
        ++ show_logging_config env R ++ show_root_logger R
        ++ ["✅ Inspection complete!"]
    ∧ (main env R).getLast? = some "✅ Inspection complete!" := by
  have h1 : main env R
      = (["🔍 PYTHON LOGGING INSPECTOR", sep60, ""]
          ++ show_logging_config env R ++ show_root_logger R)
        ++ ["✅ Inspection complete!"] := by
    simp [main]
  refine ⟨by simpa using h1, ?_⟩
  rw [h1, List.getLast?_concat]

/-- C9: the tree printer terminates on every acyclic registry: if a
ranking certifies that every real registry entry sits one level below its
recorded parent and at most `N` levels deep, then fuel reaching from the
start rank past `N` makes the fuelled recursion succeed. -/
theorem C9_tree_terminates (R : Registry) (rk : Nat → Nat) (N : Nat)
    (hok : ∀ p ∈ R.dict, entryOk R rk N p = true) :
    ∀ fuel i ind, rk i ≤ N → N + 1 ≤ rk i + fuel →
      (print_logger_tree R i ind fuel).isSome = true := by
  intro fuel
  induction fuel with
  | zero => intro i ind h1 h2; omega
  | succ fuel ih =>
    intro i ind h1 h2
    simp only [print_logger_tree]
    have hts : (traverseOpt (fun c => print_logger_tree R c (ind + 1) fuel)
        (childrenOf R i)).isSome = true := by
      apply traverseOpt_isSome
      intro c hc
      obtain ⟨⟨nm, hmem⟩, hpar⟩ := childrenOf_mem.mp hc
      have hce := hok (nm, Entry.logger c) hmem
      simp only [entryOk] at hce
      rw [hpar] at hce
      simp only [Bool.and_eq_true, decide_eq_true_eq, beq_iff_eq] at hce
      obtain ⟨hc1, hc2⟩ := hce
      exact ih c (ind + 1) hc1 (by omega)
    obtain ⟨v, hv⟩ := Option.isSome_iff_exists.mp hts
    rw [hv]
    rfl

/-- C9 witness: the sample registry with its depth ranking. -/
theorem C9_w :
    (∀ p ∈ Rc.dict, entryOk Rc rkc 2 p = true)
    ∧ (print_logger_tree Rc 0 0 3).isSome = true :=
  ⟨by decide, C9_tree_terminates Rc rkc 2 (by decide) 3 0 0 (by decide) (by decide)⟩

/-- C10: for a generic (non-file) stream handler the mapped stream field
is the stream name when the stream is present (truthy) and has a name,
the string rendering of the stream when present without a name, and the
`"N/A"` sentinel when the stream attribute is absent or falsy. -/
theorem C10_stream_field_cases (g1 g2 : Bool) (h : Handler)
    (hs : isinstance h.cls HandlerClass.streamHandler = true)
    (hnf : isinstance h.cls HandlerClass.fileHandler = false) :
    (get_handler_infoG g1 g2 h).extras = [("stream", stream_field h)]
    ∧ (∀ s nm, h.stream = some s → s.truthy = true → s.name = some nm →
        stream_field h = PyVal.pstr nm)
    ∧ (∀ s, h.stream = some s → s.truthy = true → s.name = none →
        stream_field h = PyVal.pstr s.strRepr)
    ∧ (h.stream = none → stream_field h = PyVal.pstr "N/A")
    ∧ (∀ s, h.stream = some s → s.truthy = false →
        stream_field h = PyVal.pstr "N/A") := by
  refine ⟨?_, ?_, ?_, ?_, ?_⟩
  · simp [get_handler_infoG, hnf, hs]
  · intro s nm e1 e2 e3; simp [stream_field, e1, e2, e3]
  · intro s e1 e2 e3; simp [stream_field, e1, e2, e3]
  · intro e1; simp [stream_field, e1]
  · intro s e1 e2; simp [stream_field, e1, e2]

/-- C10 witness: the sample console handler on the named `<stderr>`
stream. -/
theorem C10_w :
    (get_handler_infoG false false consoleH).extras
        = [("stream", stream_field consoleH)]
    ∧ stream_field consoleH = PyVal.pstr "<stderr>" := by
  have hall := C10_stream_field_cases false false consoleH rfl rfl
  exact ⟨hall.1, hall.2.1 ⟨true, some "<stderr>", "<ios>"⟩ "<stderr>" rfl rfl rfl⟩

end WhoLog
